import Mathlib

/-!
Verification of the coverage-grid cache and preload engine
(`cache_manager.py` / `models.py`).

The Python source is shallowly embedded: pure helpers become Lean
functions, stateful methods become explicit state-passing functions, the
wall clock (`datetime.now()` / `CURRENT_TIMESTAMP`) becomes an explicit
timestamp argument, and the opaque coverage computation
(`_calculate_coverage_grid`'s engine work) becomes a function parameter
returning `Option` (`none` models an exception caught by the
`try/except`, `some []` models the empty-result paths).  Python
`datetime` values are modelled as integer timestamps (seconds);
`timedelta(days = d)` is `d * 86400` seconds.
-/

/-! ## Strings: Python string comparison (lexicographic by code point) -/

/-- Lexicographic less-or-equal on char lists by code point, as Python
compares strings. -/
def strLeAux : List Char → List Char → Bool
  | [], _ => true
  | _ :: _, [] => false
  | a :: as, b :: bs =>
    if a.toNat < b.toNat then true
    else if b.toNat < a.toNat then false
    else strLeAux as bs

/-- Python string less-or-equal. -/
def strLe (s t : String) : Bool := strLeAux s.data t.data

/-- Propositional form of `strLe`, used as the ordering for the sorts. -/
def strLeP (s t : String) : Prop := strLe s t = true

instance : DecidableRel strLeP := fun a b => Bool.decEq (strLe a b) true

/-- Ordering of dictionary entries by key, as `json.dumps(sort_keys=True)`
orders the keys of an object. -/
def entryLe {β : Type} (a b : String × β) : Prop := strLe a.1 b.1 = true

instance {β : Type} : DecidableRel (@entryLe β) := fun a b => Bool.decEq (strLe a.1 b.1) true

/-- Python `sorted` on a list of strings: ascending code-point order.
The Lean sort used here agrees with Python's stable sort up to the order
of duplicated elements, which are identical strings, so the results are
equal. -/
def pySortStrings (l : List String) : List String := List.insertionSort strLeP l

/-! ## JSON values (the Python dict/list/str/int/None universe used by
the cache manager for `vendor_filters` and `additional_params`) -/

/-- JSON-serializable Python values: `None`, `bool`, `int`, `str`,
`list`, `dict`. -/
inductive Json where
  | null : Json
  | bool (b : Bool) : Json
  | num (n : Int) : Json
  | str (s : String) : Json
  | arr (xs : List Json) : Json
  | obj (entries : List (String × Json)) : Json

/-- Python truthiness of a JSON value (`bool(x)`): `None`, `0`, `""`,
`[]` and `{}` are falsy. -/
def pyTruthy : Json → Bool
  | .null => false
  | .bool b => b
  | .num n => !(n == 0)
  | .str s => !(s == "")
  | .arr xs => !xs.isEmpty
  | .obj l => !l.isEmpty

/-- First-match lookup in an association list (Python `dict` access by
key; a Python dict never holds duplicate keys, so first-match agrees). -/
def assocGet {κ β : Type} [DecidableEq κ] : List (κ × β) → κ → Option β
  | [], _ => none
  | (k', v) :: l, k => if k' = k then some v else assocGet l k

/-- Python `dict[k] = v`: replace the entry in place if the key is
present, otherwise append a new entry (dicts preserve insertion order). -/
def assocSet {κ β : Type} [DecidableEq κ] : List (κ × β) → κ → β → List (κ × β)
  | [], k, v => [(k, v)]
  | (k', v') :: l, k, v => if k' = k then (k, v) :: l else (k', v') :: assocSet l k v

/-- Python `del dict[k]`: remove the entry with the given key. -/
def assocErase {κ β : Type} [DecidableEq κ] : List (κ × β) → κ → List (κ × β)
  | [], _ => []
  | (k', v') :: l, k => if k' = k then l else (k', v') :: assocErase l k

mutual

/-- Python `==` on JSON values: structural on scalars and lists,
key-order-insensitive on dicts. -/
def jsonBEq : Json → Json → Bool
  | .null, .null => true
  | .bool a, .bool b => a == b
  | .num a, .num b => a == b
  | .str a, .str b => a == b
  | .arr xs, .arr ys => jsonBEqList xs ys
  | .obj a, .obj b => a.length == b.length && jsonEntriesIn a b
  | _, _ => false

/-- Elementwise Python `==` on lists. -/
def jsonBEqList : List Json → List Json → Bool
  | [], [] => true
  | x :: xs, y :: ys => jsonBEq x y && jsonBEqList xs ys
  | _, _ => false

/-- Every entry of the first dict is present with an `==` value in the
second. -/
def jsonEntriesIn : List (String × Json) → List (String × Json) → Bool
  | [], _ => true
  | (k, v) :: rest, b =>
    (match assocGet b k with
     | some w => jsonBEq v w
     | none => false)
    && jsonEntriesIn rest b

end

mutual

/-- Recursive key-sorting canonicalization: the object layout that
`json.dumps(..., sort_keys=True)` serializes. -/
def canon : Json → Json
  | .null => .null
  | .bool b => .bool b
  | .num n => .num n
  | .str s => .str s
  | .arr xs => .arr (canonList xs)
  | .obj l => .obj (List.insertionSort entryLe (canonEntries l))

/-- Canonicalize each element of a JSON array (arrays keep their
order). -/
def canonList : List Json → List Json
  | [] => []
  | x :: xs => canon x :: canonList xs

/-- Canonicalize each value of an object's entry list. -/
def canonEntries : List (String × Json) → List (String × Json)
  | [] => []
  | (k, v) :: l => (k, canon v) :: canonEntries l

end

mutual

/-- Plain JSON serialization with Python's default separators. -/
def serializeJ : Json → String
  | .null => "null"
  | .bool true => "true"
  | .bool false => "false"
  | .num n => toString n
  | .str s => "\"" ++ s ++ "\""
  | .arr xs => "[" ++ serializeList xs ++ "]"
  | .obj l => "\x7b" ++ serializeEntries l ++ "\x7d"

/-- Serialize array elements separated by `", "`. -/
def serializeList : List Json → String
  | [] => ""
  | [x] => serializeJ x
  | x :: y :: xs => serializeJ x ++ ", " ++ serializeList (y :: xs)

/-- Serialize object entries as `"key": value` separated by `", "`. -/
def serializeEntries : List (String × Json) → String
  | [] => ""
  | [(k, v)] => "\"" ++ k ++ "\": " ++ serializeJ v
  | (k, v) :: e :: l => "\"" ++ k ++ "\": " ++ serializeJ v ++ ", " ++ serializeEntries (e :: l)

end

/-- Model of `json.dumps(x, sort_keys=True)`: serialize with every
object's keys in sorted order, i.e. plain serialization of the
recursively key-sorted canonical form. -/
def pyDumpsSorted (j : Json) : String := serializeJ (canon j)

/-- Model of `hashlib.md5(s.encode()).hexdigest()`.  MD5 is modelled as
an injective function of its input — the claims concern only equality
and distinctness of keys, never the digest format — so it is embedded as
the identity on the canonical serialization. -/
def md5hex (s : String) : String := s

/-- Model of `models.generate_cache_key` (`models.py`, lines 493-505):
canonical JSON of `{city, sorted business_lines, vendor_filters,
additional_params or {}}`, hashed.  `sorted(business_lines) if
business_lines else []` and `additional_params or {}` are Python
truthiness tests, embedded as such. -/
def generate_cache_key (city_name : String) (business_lines : List String)
    (vendor_filters : Json) (additional_params : Option Json) : String :=
  md5hex (pyDumpsSorted (.obj
    [("city", .str city_name),
     ("business_lines", .arr ((if business_lines.isEmpty then [] else pySortStrings business_lines).map .str)),
     ("vendor_filters", vendor_filters),
     ("additional",
       match additional_params with
       | none => .obj []
       | some j => if pyTruthy j then j else .obj [])]))

/-! ## Key-order permutation of JSON values

`ObjPerm a b` holds when `b` is obtained from `a` by permuting the
entry order of object nodes, at any depth, leaving array order and all
atoms unchanged.  The object constructor carries the no-duplicate-keys
condition that every Python dict satisfies. -/

mutual

/-- Key-order permutation at any depth. -/
inductive ObjPerm : Json → Json → Prop where
  | null : ObjPerm .null .null
  | bool (b : Bool) : ObjPerm (.bool b) (.bool b)
  | num (n : Int) : ObjPerm (.num n) (.num n)
  | str (s : String) : ObjPerm (.str s) (.str s)
  | arr {xs ys : List Json} : ObjPermList xs ys → ObjPerm (.arr xs) (.arr ys)
  | obj {l₁ l₂ l₃ : List (String × Json)} : ObjPermEntries l₁ l₂ → l₂.Perm l₃ →
      (l₂.map Prod.fst).Nodup → ObjPerm (.obj l₁) (.obj l₃)

/-- Pointwise `ObjPerm` on array elements. -/
inductive ObjPermList : List Json → List Json → Prop where
  | nil : ObjPermList [] []
  | cons {x y : Json} {xs ys : List Json} : ObjPerm x y → ObjPermList xs ys →
      ObjPermList (x :: xs) (y :: ys)

/-- Pointwise `ObjPerm` on entry values, keys unchanged and in place. -/
inductive ObjPermEntries : List (String × Json) → List (String × Json) → Prop where
  | nil : ObjPermEntries [] []
  | cons {k : String} {v w : Json} {l₁ l₂ : List (String × Json)} : ObjPerm v w →
      ObjPermEntries l₁ l₂ → ObjPermEntries ((k, v) :: l₁) ((k, w) :: l₂)

end

/-! ## MemoryCache (`CoverageGridCacheManager.memory_cache`)

The in-memory tier is a Python dict from cache key to
`{'data': ..., 'last_accessed': ..., 'access_count': ...}`, embedded as
an insertion-ordered association list.  The grid payload (a list of
point dicts) is kept abstract in the element type `α`; its only
behaviorally relevant feature in the cache manager is list truthiness. -/

/-- One `memory_cache` entry. -/
structure MemEntry (α : Type) where
  data : List α
  last_accessed : Nat
  access_count : Nat
  deriving DecidableEq

/-- The memory cache: insertion-ordered dict keyed by cache key. -/
abbrev MemCache (α : Type) := List (String × MemEntry α)

/-- Source constant `self.max_memory_cache_size = 50`. -/
def maxMemoryCacheSize : Nat := 50

/-- Model of `min(self.memory_cache.keys(), key=lambda k:
self.memory_cache[k]['last_accessed'])`: the first entry (in dict
iteration order) attaining the minimal `last_accessed`, `none` on an
empty dict (where Python `min` would raise). -/
def minByLastAccessed {α : Type} : MemCache α → Option (String × MemEntry α)
  | [] => none
  | p :: l =>
    match minByLastAccessed l with
    | none => some p
    | some q => if p.2.last_accessed ≤ q.2.last_accessed then some p else some q

/-- Model of `CoverageGridCacheManager._add_to_memory_cache`
(`cache_manager.py`, lines 264-278): if the dict already holds at least
`max_memory_cache_size` entries, delete the entry with the minimal
`last_accessed`, then assign `cache[cache_key] = {'data': data,
'last_accessed': now, 'access_count': 1}`. -/
def add_to_memory_cache {α : Type} (cache : MemCache α) (cache_key : String)
    (data : List α) (now : Nat) : MemCache α :=
  let cache1 :=
    if maxMemoryCacheSize ≤ cache.length then
      match minByLastAccessed cache with
      | some oldest => assocErase cache oldest.1
      | none => cache
    else cache
  assocSet cache1 cache_key ⟨data, now, 1⟩

/-- Model of `CoverageGridCacheManager._update_memory_cache_access`
(`cache_manager.py`, lines 280-284): on a hit, refresh `last_accessed`
and increment `access_count`. -/
def update_memory_cache_access {α : Type} (cache : MemCache α) (cache_key : String)
    (now : Nat) : MemCache α :=
  match assocGet cache cache_key with
  | some e => assocSet cache cache_key ⟨e.data, now, e.access_count + 1⟩
  | none => cache

/-! ## Preload queue and priorities -/

/-- Model of the `CoverageGridTask` dataclass (`cache_manager.py`,
lines 19-30); `created_at` is the explicit creation timestamp. -/
structure CoverageGridTask where
  city_name : String
  business_lines : List String
  vendor_filters : Json
  priority : Int
  created_at : Nat

/-- Model of `CoverageGridCacheManager._calculate_priority`
(`cache_manager.py`, lines 99-119): base 3; minus one each for Tehran,
a restaurant business line, a single business line, and the premium
`grades == ['A+']` filter; clamped to `[1, 5]`. -/
def calculate_priority (city : String) (business_lines : List String)
    (filters : Json) : Int :=
  let p : Int := 3
  let p := if city = "tehran" then p - 1 else p
  let p := if business_lines.contains "restaurant" then p - 1 else p
  let p := if business_lines.length = 1 then p - 1 else p
  let p :=
    if (match filters with
        | .obj l =>
          (match assocGet l "grades" with
           | some g => jsonBEq g (.arr [.str "A+"])
           | none => false)
        | _ => false) = true
    then p - 1 else p
  max 1 (min 5 p)

/-- Queue ordering used by `self.preload_queue.sort(key=lambda x:
x.priority)`. -/
def taskLe (t u : CoverageGridTask) : Prop := t.priority ≤ u.priority

instance : DecidableRel taskLe := fun t u => Int.decLe t.priority u.priority

/-- Model of `list.sort(key=lambda x: x.priority)`; agrees with
Python's stable sort up to the order of tasks with equal priority,
which no verified property depends on. -/
def sortTasks (q : List CoverageGridTask) : List CoverageGridTask :=
  List.insertionSort taskLe q

/-- The fingerprint of a task, as recomputed by the queue code:
`generate_cache_key(t.city_name, t.business_lines, t.vendor_filters)`. -/
def task_cache_key (t : CoverageGridTask) : String :=
  generate_cache_key t.city_name t.business_lines t.vendor_filters none

/-- Model of `CoverageGridCacheManager._add_to_preload_queue`
(`cache_manager.py`, lines 286-304): build the task, and only if no
queued task has the same cache key, append it and re-sort by priority. -/
def add_to_preload_queue (queue : List CoverageGridTask) (city_name : String)
    (business_lines : List String) (vendor_filters : Json) (now : Nat) :
    List CoverageGridTask :=
  let task : CoverageGridTask :=
    ⟨city_name, business_lines, vendor_filters,
     calculate_priority city_name business_lines vendor_filters, now⟩
  let cache_key := generate_cache_key city_name business_lines vendor_filters none
  let existing_keys := queue.map task_cache_key
  if cache_key ∈ existing_keys then queue
  else sortTasks (queue ++ [task])

/-! ## Common combinations and preload lifecycle -/

/-- The cities of `_define_common_combinations`. -/
def commonCities : List String := ["tehran", "mashhad", "shiraz"]

/-- The business-line combinations of `_define_common_combinations`. -/
def commonBusinessLines : List (List String) :=
  [["restaurant"], ["coffee"], ["bakery"], ["supermarket"],
   ["restaurant", "coffee"], ["restaurant", "bakery"]]

/-- The first common vendor filter (all vendors, minimal filtering). -/
def commonFilterAll : Json :=
  .obj [("status_ids", .arr [.num 5]),
        ("grades", .arr [.str "A", .str "A+"]),
        ("visible", .num 1),
        ("is_open", .null)]

/-- The second common vendor filter (premium vendors only). -/
def commonFilterPremium : Json :=
  .obj [("status_ids", .arr [.num 5]),
        ("grades", .arr [.str "A+"]),
        ("visible", .num 1),
        ("is_open", .num 1)]

/-- The third common vendor filter (all active vendors). -/
def commonFilterActive : Json :=
  .obj [("status_ids", .arr [.num 4, .num 5]),
        ("grades", .arr [.str "A", .str "A+", .str "B"]),
        ("visible", .num 1),
        ("is_open", .null)]

/-- The common vendor filters of `_define_common_combinations`. -/
def commonFilters : List Json :=
  [commonFilterAll, commonFilterPremium, commonFilterActive]

/-- Model of `_define_common_combinations` (`cache_manager.py`, lines
51-97), materialized as tasks the way `start_preloading` builds them
(`CoverageGridTask(**combo)` with `created_at` defaulting to now). -/
def common_combinations (now : Nat) : List CoverageGridTask :=
  commonCities.flatMap fun city =>
    commonBusinessLines.flatMap fun bl =>
      commonFilters.map fun f =>
        ⟨city, bl, f, calculate_priority city bl f, now⟩

/-- Runtime errors surfaced by the embedding; `runtimeError` models the
`RuntimeError` that `ThreadPoolExecutor.submit` raises after
`shutdown` has been called (Python stdlib behavior). -/
inductive PyErr where
  | runtimeError : PyErr
  deriving DecidableEq

/-- The preload-related state of `CoverageGridCacheManager`:
`preload_queue`, the `is_preloading` flag, and whether
`preload_executor.shutdown` has been called. -/
structure PreloadMgr where
  preload_queue : List CoverageGridTask
  is_preloading : Bool
  executor_is_shutdown : Bool

/-- Model of `stop_preloading` (`cache_manager.py`, lines 370-373):
clear the flag and shut the executor down. -/
def stop_preloading (m : PreloadMgr) : PreloadMgr :=
  { m with is_preloading := false, executor_is_shutdown := true }

/-- Model of `start_preloading` (`cache_manager.py`, lines 306-326): if
already preloading, return with only a warning; otherwise set the flag,
append every common combination to the queue (with no duplicate check),
sort by priority, and submit the worker — which raises `RuntimeError`
when the executor has been shut down. -/
def start_preloading (m : PreloadMgr) (now : Nat) : Option PyErr × PreloadMgr :=
  if m.is_preloading then (none, m)
  else
    let m1 := { m with is_preloading := true }
    let m2 := { m1 with preload_queue := m1.preload_queue ++ common_combinations now }
    let m3 := { m2 with preload_queue := sortTasks m2.preload_queue }
    if m3.executor_is_shutdown then (some .runtimeError, m3) else (none, m3)

/-! ## PersistentCacheStore (`coverage_grid_cache` table, `models.py`) -/

/-- One row of the `coverage_grid_cache` table (`models.py` schema,
lines 94-106); `created_at` and `last_accessed` default to the current
timestamp on insert. -/
structure DbRec (α : Type) where
  cache_key : String
  city_name : String
  business_line : String
  vendor_filters : Json
  grid_data : List α
  point_count : Nat
  created_at : Nat
  last_accessed : Nat

/-- Row lookup by `cache_key` (the column is UNIQUE; first match). -/
def dbFind {α : Type} : List (DbRec α) → String → Option (DbRec α)
  | [], _ => none
  | r :: l, k => if r.cache_key = k then some r else dbFind l k

/-- Model of `DatabaseManager.get_cached_coverage_grid` (`models.py`,
lines 364-388): select `grid_data` by key; on a hit also update the
row's `last_accessed` to the current timestamp.  Returns the retrieved
payload (or `none`) and the updated table. -/
def get_cached_coverage_grid {α : Type} (db : List (DbRec α)) (cache_key : String)
    (now : Nat) : Option (List α) × List (DbRec α) :=
  match dbFind db cache_key with
  | some r =>
    (some r.grid_data,
     db.map fun r' => if r'.cache_key = cache_key then { r' with last_accessed := now } else r')
  | none => (none, db)

/-- Python `','.join(business_lines)`. -/
def joinComma : List String → String
  | [] => ""
  | [s] => s
  | s :: t :: l => s ++ "," ++ joinComma (t :: l)

/-- Model of `DatabaseManager.cache_coverage_grid` (`models.py`, lines
344-362): `INSERT OR REPLACE` keyed on the UNIQUE `cache_key`; the
replaced row's timestamp columns take their defaults, i.e. now. -/
def cache_coverage_grid {α : Type} (db : List (DbRec α)) (cache_key city_name : String)
    (business_line : String) (vendor_filters : Json) (grid_data : List α)
    (now : Nat) : List (DbRec α) :=
  (db.filter fun r => !(r.cache_key == cache_key)) ++
    [⟨cache_key, city_name, business_line, vendor_filters, grid_data,
      grid_data.length, now, now⟩]

/-! ## CacheCoordinator (`get_or_calculate_coverage_grid`)

The Computation Engine — everything `_calculate_coverage_grid` does
around vendors, grid generation and scoring — is opaque to the cache
logic and is passed in as a function `engine`; `none` models the
`except` branch returning `None`, `some []` the empty-result branches,
and `some (nonempty)` a successful computation.  The result triple is
(returned value, new state, number of engine invocations made by the
call). -/

/-- The mutable state that `get_or_calculate_coverage_grid` touches:
both cache tiers and the preload queue. -/
structure CoordState (α : Type) where
  memory_cache : MemCache α
  db : List (DbRec α)
  preload_queue : List CoverageGridTask

/-- The cache-miss tail of `get_or_calculate_coverage_grid`
(`cache_manager.py`, lines 148-164): enqueue a preload task, invoke the
engine, and — only when the result is truthy (`if grid_data:`, so a
non-`None`, non-empty list) — write it through to the database cache
and the memory cache.  The empty list is returned but, being falsy,
not cached. -/
def coverage_grid_miss_path {α : Type}
    (engine : String → List String → Json → Option (List α))
    (st : CoordState α) (now : Nat) (city_name : String)
    (business_lines : List String) (vendor_filters : Json) (cache_key : String) :
    Option (List α) × CoordState α × Nat :=
  let st := { st with preload_queue :=
    add_to_preload_queue st.preload_queue city_name business_lines vendor_filters now }
  match engine city_name business_lines vendor_filters with
  | some grid_data =>
    if grid_data.isEmpty then (some grid_data, st, 1)
    else
      (some grid_data,
       { st with
         db := cache_coverage_grid st.db cache_key city_name
           (joinComma business_lines) vendor_filters grid_data now,
         memory_cache := add_to_memory_cache st.memory_cache cache_key grid_data now },
       1)
  | none => (none, st, 1)

/-- Model of `CoverageGridCacheManager.get_or_calculate_coverage_grid`
(`cache_manager.py`, lines 121-164): unless forced, serve from the
memory cache (refreshing its access metadata), else from the database
cache (bumping `last_accessed` and, when the stored payload is truthy,
populating the memory cache); on a miss fall through to
`coverage_grid_miss_path`. -/
def get_or_calculate_coverage_grid {α : Type}
    (engine : String → List String → Json → Option (List α))
    (st : CoordState α) (now : Nat) (city_name : String)
    (business_lines : List String) (vendor_filters : Json)
    (force_recalculate : Bool) : Option (List α) × CoordState α × Nat :=
  let cache_key := generate_cache_key city_name business_lines vendor_filters none
  match (if force_recalculate then none else assocGet st.memory_cache cache_key) with
  | some entry =>
    (some entry.data,
     { st with memory_cache := update_memory_cache_access st.memory_cache cache_key now },
     0)
  | none =>
    let dbres := if force_recalculate then (none, st.db)
      else get_cached_coverage_grid st.db cache_key now
    let st := { st with db := dbres.2 }
    match dbres.1 with
    | some cached_data =>
      if cached_data.isEmpty then
        coverage_grid_miss_path engine st now city_name business_lines vendor_filters cache_key
      else
        (some cached_data,
         { st with memory_cache :=
             add_to_memory_cache st.memory_cache cache_key cached_data now },
         0)
    | none =>
      coverage_grid_miss_path engine st now city_name business_lines vendor_filters cache_key

/-! ## Result post-processing (`_process_coverage_results`) -/

/-- One scored grid point as produced by the vectorized coverage
computation: coordinates, vendor count, and per-business-line metric.
Numeric measurements are modelled as rationals. -/
structure CoveragePoint where
  lat : ℚ
  lng : ℚ
  total_vendors : Nat
  by_business_line : List (String × ℚ)
  deriving DecidableEq

/-- The target-vs-actual block that `point_data.update(...)` attaches
(`cache_manager.py`, lines 253-258); `perf_vs_target` models the
`performance_ratio` entry. -/
structure TargetMetrics where
  target_business_line : String
  target_value : ℚ
  actual_value : ℚ
  perf_vs_target : ℚ
  deriving DecidableEq

/-- One processed output point (`point_data`): coordinates, the raw
coverage, the resolved marketing-area name, and the optional
target-metrics block. -/
structure ProcessedPoint where
  lat : ℚ
  lng : ℚ
  coverage : CoveragePoint
  marketing_area : Option String
  target_metrics : Option TargetMetrics
  deriving DecidableEq

/-- Python truthiness of an `area_id` (`None` and `0` are falsy). -/
def pyTruthyAreaId : Option Int → Bool
  | none => false
  | some v => !(v == 0)

/-- Python `enumerate`, with explicit start index. -/
def enumerateFrom {β : Type} : Nat → List β → List (Nat × β)
  | _, [] => []
  | n, x :: xs => (n, x) :: enumerateFrom (n + 1) xs

/-- The body of the `_process_coverage_results` loop for one indexed
coverage point (`cache_manager.py`, lines 235-260): drop the point
unless `total_vendors > 0`; resolve `(area_id, area_name)` from
`point_area_info[i]` when in range, else `(None, None)`; and when the
target lookup is non-empty, the area id is truthy and exactly one
business line is requested, attach target metrics for a lookup hit,
with `performance_ratio = actual/target` when `target > 0` and the
sentinel `2.0` otherwise. -/
def process_point (target_lookup : List ((Int × String) × ℚ))
    (point_area_info : List (Option Int × Option String))
    (business_lines : List String) (i : Nat) (coverage : CoveragePoint) :
    Option ProcessedPoint :=
  if coverage.total_vendors > 0 then
    let ai := if i < point_area_info.length
      then point_area_info.getD i (none, none) else (none, none)
    let tm :=
      if target_lookup ≠ [] ∧ pyTruthyAreaId ai.1 = true ∧ business_lines.length = 1 then
        match ai.1, business_lines with
        | some area_id, bl0 :: _ =>
          match assocGet target_lookup (area_id, bl0) with
          | some target_value =>
            let actual_value := (assocGet coverage.by_business_line bl0).getD 0
            some ⟨bl0, target_value, actual_value,
                  if target_value > 0 then actual_value / target_value else 2⟩
          | none => none
        | _, _ => none
      else none
    some ⟨coverage.lat, coverage.lng, coverage, ai.2, tm⟩
  else none

/-- The `_process_coverage_results` loop over `enumerate(
coverage_results)`, with the target lookup as an explicit argument. -/
def process_coverage_results_with (target_lookup : List ((Int × String) × ℚ))
    (coverage_results : List CoveragePoint)
    (point_area_info : List (Option Int × Option String))
    (business_lines : List String) : List ProcessedPoint :=
  (enumerateFrom 0 coverage_results).filterMap fun p =>
    process_point target_lookup point_area_info business_lines p.1 p.2

/-- The target lookup `_process_coverage_results` actually builds
(`cache_manager.py`, lines 228-233): `target_lookup = {}`, and the
`city_name == "tehran" and len(business_lines) == 1` branch body is
`pass` (loading from the target data is skipped), so the lookup is
empty for every input. -/
def target_lookup_loaded (city_name : String) (business_lines : List String) :
    List ((Int × String) × ℚ) :=
  if city_name = "tehran" ∧ business_lines.length = 1 then [] else []

/-- Model of `CoverageGridCacheManager._process_coverage_results`
(`cache_manager.py`, lines 220-262). -/
def process_coverage_results (coverage_results : List CoveragePoint)
    (point_area_info : List (Option Int × Option String))
    (business_lines : List String) (city_name : String) : List ProcessedPoint :=
  process_coverage_results_with (target_lookup_loaded city_name business_lines)
    coverage_results point_area_info business_lines

/-! ## Cache cleanup (`DatabaseManager.cleanup_old_cache`) -/

/-- The columns of a `coverage_grid_cache` row that `cleanup_old_cache`
reads. -/
structure CovCacheRec where
  cache_key : String
  last_accessed : Int
  deriving DecidableEq

/-- The columns of a `heatmap_cache` row that `cleanup_old_cache`
reads. -/
structure HeatCacheRec where
  cache_key : String
  created_at : Int
  deriving DecidableEq

/-- Seconds per day, for `timedelta(days=days_old)`. -/
def secondsPerDay : Int := 86400

/-- Model of `DatabaseManager.cleanup_old_cache` (`models.py`, lines
428-451): delete `coverage_grid_cache` rows with `last_accessed <
now - days_old` and `heatmap_cache` rows with `created_at` below the
same cutoff.  The deleted counts are only logged; the Python function
has no `return` statement, so the returned value (first component) is
`none`, modelling Python's implicit `None`. -/
def cleanup_old_cache (cov : List CovCacheRec) (heat : List HeatCacheRec)
    (now : Int) (days_old : Int) : Option Nat × List CovCacheRec × List HeatCacheRec :=
  let cutoff_date := now - days_old * secondsPerDay
  let cov' := cov.filter fun r => !decide (r.last_accessed < cutoff_date)
  let heat' := heat.filter fun r => !decide (r.created_at < cutoff_date)
  (none, cov', heat')

/-! ## Concrete data used by witnesses and counterexamples -/

/-- A memory cache filled to capacity: keys `k0..k49`, entry `ki`
holding payload `[i]` with `last_accessed = i` (so `k0` is the LRU
entry). -/
def bigCacheW : MemCache Nat :=
  (List.range maxMemoryCacheSize).map fun i => ("k" ++ toString i, ⟨[i], i, 1⟩)

/-- A short put sequence for exercising the size bound. -/
def putsW : List (String × List Nat × Nat) :=
  [("a", [1], 5), ("b", [2], 6), ("a", [3], 7)]

/-- A stub engine whose computation always succeeds with an empty
result (the no-matching-data paths of `_calculate_coverage_grid`). -/
def engineEmpty : String → List String → Json → Option (List Nat) :=
  fun _ _ _ => some []

/-- A stub engine whose computation always succeeds with a non-empty
result. -/
def engineSeven : String → List String → Json → Option (List Nat) :=
  fun _ _ _ => some [7]

/-- A stub engine whose computation always fails (the `except` branch
of `_calculate_coverage_grid` returning `None`). -/
def engineFail : String → List String → Json → Option (List Nat) :=
  fun _ _ _ => none

/-- A coordinator state with empty caches and queue. -/
def emptyCoord : CoordState Nat := ⟨[], [], []⟩

/-- Coverage-grid cache rows for the cleanup scenario: one stale row
(`last_accessed` at day 0) and one fresh row (day 4), cleaned at day 10
with the default 7-day retention (cutoff day 3). -/
def covRecsW : List CovCacheRec :=
  [⟨"stale", 0⟩, ⟨"fresh", 4 * secondsPerDay⟩]

/-- Heatmap cache rows for the cleanup scenario: one stale row. -/
def heatRecsW : List HeatCacheRec := [⟨"hstale", 0⟩]

/-- A one-entry target lookup for the post-processing scenario. -/
def targetLookupW : List ((Int × String) × ℚ) := [((1, "restaurant"), 4)]

/-- Marketing-area info aligning grid point 0 with area 1. -/
def areasW : List (Option Int × Option String) := [(some 1, some "district-1")]

/-- One covered grid point with 2 restaurant-line coverage. -/
def covPointW : CoveragePoint := ⟨35, 51, 3, [("restaurant", 2)]⟩

/-- A one-task queue produced by enqueuing the (tehran, [restaurant],
all-vendors) combination, which is also one of the seeded common
combinations. -/
def q0W : List CoverageGridTask :=
  add_to_preload_queue [] "tehran" ["restaurant"] commonFilterAll 5

/-! ## Theorems

Helper lemmas first, then, for each claim, its theorem (and witness or
counterexample where applicable). -/

theorem strLeAux_total : ∀ as bs, strLeAux as bs = true ∨ strLeAux bs as = true := by
  intro as
  induction as with
  | nil => intro bs; left; rfl
  | cons a as ih =>
    intro bs
    cases bs with
    | nil => right; rfl
    | cons b bs =>
      simp only [strLeAux]
      rcases Nat.lt_trichotomy a.toNat b.toNat with h | h | h
      · left; simp [h]
      · have h1 : ¬ a.toNat < b.toNat := by omega
        have h2 : ¬ b.toNat < a.toNat := by omega
        simpa [h1, h2] using ih bs
      · right; simp [h]

theorem strLeAux_le_cases : ∀ {a b : Char} {as bs : List Char},
    strLeAux (a :: as) (b :: bs) = true →
    a.toNat < b.toNat ∨ (a.toNat = b.toNat ∧ strLeAux as bs = true) := by
  intro a b as bs h
  by_cases h1 : a.toNat < b.toNat
  · exact Or.inl h1
  · by_cases h2 : b.toNat < a.toNat
    · rw [strLeAux, if_neg h1, if_pos h2] at h; exact absurd h (by simp)
    · rw [strLeAux, if_neg h1, if_neg h2] at h
      exact Or.inr ⟨by omega, h⟩

theorem strLeAux_trans : ∀ as bs cs, strLeAux as bs = true → strLeAux bs cs = true →
    strLeAux as cs = true := by
  intro as
  induction as with
  | nil => intro bs cs _ _; rfl
  | cons a as ih =>
    intro bs cs hab hbc
    cases bs with
    | nil => rw [strLeAux] at hab; exact absurd hab (by simp)
    | cons b bs =>
      cases cs with
      | nil => rw [strLeAux] at hbc; exact absurd hbc (by simp)
      | cons c cs =>
        rcases strLeAux_le_cases hab with h1 | ⟨h1, h1'⟩ <;>
          rcases strLeAux_le_cases hbc with h2 | ⟨h2, h2'⟩ <;>
          rw [strLeAux]
        · simp [show a.toNat < c.toNat by omega]
        · simp [show a.toNat < c.toNat by omega]
        · simp [show a.toNat < c.toNat by omega]
        · rw [if_neg (by omega), if_neg (by omega)]
          exact ih bs cs h1' h2'

theorem strLeAux_antisymm : ∀ as bs, strLeAux as bs = true → strLeAux bs as = true →
    as = bs := by
  intro as
  induction as with
  | nil =>
    intro bs _ hba
    cases bs with
    | nil => rfl
    | cons b bs => rw [strLeAux] at hba; exact absurd hba (by simp)
  | cons a as ih =>
    intro bs hab hba
    cases bs with
    | nil => rw [strLeAux] at hab; exact absurd hab (by simp)
    | cons b bs =>
      rcases strLeAux_le_cases hab with h1 | ⟨h1, h1'⟩ <;>
        rcases strLeAux_le_cases hba with h2 | ⟨h2, h2'⟩
      · omega
      · omega
      · omega
      · have hc : a = b := by
          unfold Char.toNat at h1
          exact Char.ext (UInt32.ext h1)
        rw [hc, ih bs h1' h2']

theorem strLe_total (s t : String) : strLe s t = true ∨ strLe t s = true :=
  strLeAux_total s.data t.data

theorem strLe_trans {s t u : String} (h1 : strLe s t = true) (h2 : strLe t u = true) :
    strLe s u = true :=
  strLeAux_trans s.data t.data u.data h1 h2

theorem strLe_antisymm {s t : String} (h1 : strLe s t = true) (h2 : strLe t s = true) :
    s = t :=
  String.ext (strLeAux_antisymm s.data t.data h1 h2)

instance : IsTotal String strLeP := ⟨strLe_total⟩

instance : IsTrans String strLeP := ⟨fun _ _ _ => strLe_trans⟩

instance : IsAntisymm String strLeP := ⟨fun _ _ => strLe_antisymm⟩

instance {β : Type} : IsTotal (String × β) entryLe := ⟨fun a b => strLe_total a.1 b.1⟩

instance {β : Type} : IsTrans (String × β) entryLe := ⟨fun _ _ _ => strLe_trans⟩

theorem pySortStrings_perm_eq {l₁ l₂ : List String} (h : l₁.Perm l₂) :
    pySortStrings l₁ = pySortStrings l₂ :=
  List.eq_of_perm_of_sorted
    ((List.perm_insertionSort strLeP l₁).trans
      (h.trans (List.perm_insertionSort strLeP l₂).symm))
    (List.sorted_insertionSort strLeP l₁)
    (List.sorted_insertionSort strLeP l₂)

theorem sortEntries_perm_eq {β : Type} {l₁ l₂ : List (String × β)} (h : l₁.Perm l₂)
    (nd : (l₁.map Prod.fst).Nodup) :
    List.insertionSort entryLe l₁ = List.insertionSort entryLe l₂ := by
  have hp : (List.insertionSort entryLe l₁).Perm (List.insertionSort entryLe l₂) :=
    (List.perm_insertionSort entryLe l₁).trans
      (h.trans (List.perm_insertionSort entryLe l₂).symm)
  have nd₁ : ((List.insertionSort entryLe l₁).map Prod.fst).Nodup :=
    (((List.perm_insertionSort entryLe l₁).map Prod.fst).nodup_iff).mpr nd
  have nd₂ : ((List.insertionSort entryLe l₂).map Prod.fst).Nodup :=
    ((hp.symm.map Prod.fst).nodup_iff).mpr nd₁
  have s₁ :
      List.Pairwise (fun a b : String × β => entryLe a b ∧ a.1 ≠ b.1)
        (List.insertionSort entryLe l₁) :=
    (List.sorted_insertionSort entryLe l₁).and (List.pairwise_map.mp nd₁)
  have s₂ :
      List.Pairwise (fun a b : String × β => entryLe a b ∧ a.1 ≠ b.1)
        (List.insertionSort entryLe l₂) :=
    (List.sorted_insertionSort entryLe l₂).and (List.pairwise_map.mp nd₂)
  haveI : IsAntisymm (String × β) (fun a b => entryLe a b ∧ a.1 ≠ b.1) :=
    ⟨fun a b ha hb => absurd (strLe_antisymm ha.1 hb.1) ha.2⟩
  exact List.eq_of_perm_of_sorted hp s₁ s₂

theorem canonEntries_eq_map (l : List (String × Json)) :
    canonEntries l = l.map fun p => (p.1, canon p.2) := by
  induction l with
  | nil => rfl
  | cons p l ih =>
    obtain ⟨k, v⟩ := p
    rw [canonEntries, ih, List.map_cons]

theorem canonEntries_keys (l : List (String × Json)) :
    (canonEntries l).map Prod.fst = l.map Prod.fst := by
  induction l with
  | nil => rfl
  | cons p l ih =>
    obtain ⟨k, v⟩ := p
    rw [canonEntries, List.map_cons, List.map_cons, ih]

theorem objPermEntries_length : ∀ {l₁ l₂ : List (String × Json)},
    ObjPermEntries l₁ l₂ → l₁.length = l₂.length
  | _, _, .nil => rfl
  | _, _, .cons _ he => by
    simp only [List.length_cons, objPermEntries_length he]

theorem objPermList_length : ∀ {xs ys : List Json},
    ObjPermList xs ys → xs.length = ys.length
  | _, _, .nil => rfl
  | _, _, .cons _ hl => by
    simp only [List.length_cons, objPermList_length hl]

theorem objPermEntries_keys : ∀ {l₁ l₂ : List (String × Json)},
    ObjPermEntries l₁ l₂ → l₁.map Prod.fst = l₂.map Prod.fst
  | _, _, .nil => rfl
  | _, _, .cons _ he => by
    simp only [List.map_cons, objPermEntries_keys he]

mutual

theorem canon_objPerm : ∀ {a b : Json}, ObjPerm a b → canon a = canon b
  | _, _, .null => rfl
  | _, _, .bool _ => rfl
  | _, _, .num _ => rfl
  | _, _, .str _ => rfl
  | _, _, .arr hl => by
    rw [canon, canon, canonList_objPermList hl]
  | _, _, .obj he hp nd => by
    rw [canon, canon]
    congr 1
    rw [canonEntries_objPermEntries he]
    apply sortEntries_perm_eq
    · rw [canonEntries_eq_map, canonEntries_eq_map]
      exact hp.map _
    · rw [canonEntries_keys]
      exact nd

theorem canonList_objPermList : ∀ {xs ys : List Json},
    ObjPermList xs ys → canonList xs = canonList ys
  | _, _, .nil => rfl
  | _, _, .cons h hl => by
    rw [canonList, canonList, canon_objPerm h, canonList_objPermList hl]

theorem canonEntries_objPermEntries : ∀ {l₁ l₂ : List (String × Json)},
    ObjPermEntries l₁ l₂ → canonEntries l₁ = canonEntries l₂
  | _, _, .nil => rfl
  | _, _, .cons h he => by
    rw [canonEntries, canonEntries, canon_objPerm h, canonEntries_objPermEntries he]

end

theorem list_isEmpty_congr {γ δ : Type} {x : List γ} {y : List δ}
    (h : x.length = y.length) : x.isEmpty = y.isEmpty := by
  cases x <;> cases y <;> simp_all

theorem pyTruthy_objPerm {a b : Json} (h : ObjPerm a b) : pyTruthy a = pyTruthy b := by
  cases h with
  | null => rfl
  | bool _ => rfl
  | num _ => rfl
  | str _ => rfl
  | arr hl =>
    simp only [pyTruthy]
    rw [list_isEmpty_congr (objPermList_length hl)]
  | obj he hp nd =>
    simp only [pyTruthy]
    rw [list_isEmpty_congr ((objPermEntries_length he).trans hp.length_eq)]

theorem sortedBusinessLines_perm_eq {bls bls' : List String} (h : bls.Perm bls') :
    (if bls.isEmpty then ([] : List String) else pySortStrings bls) =
      (if bls'.isEmpty then [] else pySortStrings bls') := by
  cases bls with
  | nil => rw [← h.nil_eq]
  | cons a l =>
    cases bls' with
    | nil => exact absurd h.length_eq (by simp)
    | cons b m => simpa using pySortStrings_perm_eq h

/-- C6: `generate_cache_key` is a pure function (a Lean `def`, so
deterministic by construction), invariant under reordering
`business_lines`, invariant under key-order permutation (at any
nesting depth, `ObjPerm`) of `vendor_filters` and of
`additional_params`, and `additional_params = None` yields the same
key as `additional_params = {}`. -/
theorem generate_cache_key_canonical :
    (∀ (city : String) (bls bls' : List String) (vf vf' : Json) (extra : Option Json),
      bls.Perm bls' → ObjPerm vf vf' →
      generate_cache_key city bls vf extra = generate_cache_key city bls' vf' extra) ∧
    (∀ (city : String) (bls : List String) (vf : Json) (e e' : Json),
      ObjPerm e e' →
      generate_cache_key city bls vf (some e) = generate_cache_key city bls vf (some e')) ∧
    (∀ (city : String) (bls : List String) (vf : Json),
      generate_cache_key city bls vf none =
        generate_cache_key city bls vf (some (Json.obj []))) := by
  refine ⟨?_, ?_, ?_⟩
  · intro city bls bls' vf vf' extra hb hv
    unfold generate_cache_key md5hex pyDumpsSorted
    rw [sortedBusinessLines_perm_eq hb]
    congr 1
    simp only [canon, canonEntries]
    rw [canon_objPerm hv]
  · intro city bls vf e e' he
    unfold generate_cache_key md5hex pyDumpsSorted
    congr 1
    simp only [canon, canonEntries]
    have ht := pyTruthy_objPerm he
    by_cases hp : pyTruthy e = true
    · have hp' : pyTruthy e' = true := ht ▸ hp
      rw [if_pos hp, if_pos hp', canon_objPerm he]
    · have hp' : ¬ pyTruthy e' = true := fun hc => hp (ht.trans hc)
      rw [if_neg hp, if_neg hp']
  · intro city bls vf
    rfl

/-- Witness for C6 at concrete inputs: reordered business lines, a
key-permuted filter dict with a key-permuted nested dict, and
`None` versus `{}` extra params. -/
theorem generate_cache_key_canonical_witness :
    (generate_cache_key "tehran" ["restaurant", "coffee"]
        (Json.obj [("visible", Json.num 1),
                   ("grades", Json.obj [("x", Json.num 1), ("y", Json.num 2)])]) none =
      generate_cache_key "tehran" ["coffee", "restaurant"]
        (Json.obj [("grades", Json.obj [("y", Json.num 2), ("x", Json.num 1)]),
                   ("visible", Json.num 1)]) none) ∧
    (generate_cache_key "mashhad" ["coffee"] commonFilterAll
        (some (Json.obj [("zoom", Json.num 11), ("mode", Json.str "fast")])) =
      generate_cache_key "mashhad" ["coffee"] commonFilterAll
        (some (Json.obj [("mode", Json.str "fast"), ("zoom", Json.num 11)]))) ∧
    (generate_cache_key "shiraz" [] commonFilterPremium none =
      generate_cache_key "shiraz" [] commonFilterPremium (some (Json.obj []))) :=
  ⟨generate_cache_key_canonical.1 "tehran" _ _ _ _ none
      (List.Perm.swap "coffee" "restaurant" [])
      (@ObjPerm.obj
        [("visible", Json.num 1), ("grades", Json.obj [("x", Json.num 1), ("y", Json.num 2)])]
        [("visible", Json.num 1), ("grades", Json.obj [("y", Json.num 2), ("x", Json.num 1)])]
        [("grades", Json.obj [("y", Json.num 2), ("x", Json.num 1)]), ("visible", Json.num 1)]
        (ObjPermEntries.cons (ObjPerm.num 1)
          (ObjPermEntries.cons
            (@ObjPerm.obj
              [("x", Json.num 1), ("y", Json.num 2)]
              [("x", Json.num 1), ("y", Json.num 2)]
              [("y", Json.num 2), ("x", Json.num 1)]
              (ObjPermEntries.cons (ObjPerm.num 1)
                (ObjPermEntries.cons (ObjPerm.num 2) ObjPermEntries.nil))
              (List.Perm.swap ("y", Json.num 2) ("x", Json.num 1) [])
              (by decide))
            ObjPermEntries.nil))
        (List.Perm.swap ("grades", Json.obj [("y", Json.num 2), ("x", Json.num 1)])
          ("visible", Json.num 1) [])
        (by decide)),
   generate_cache_key_canonical.2.1 "mashhad" ["coffee"] commonFilterAll _ _
      (@ObjPerm.obj
        [("zoom", Json.num 11), ("mode", Json.str "fast")]
        [("zoom", Json.num 11), ("mode", Json.str "fast")]
        [("mode", Json.str "fast"), ("zoom", Json.num 11)]
        (ObjPermEntries.cons (ObjPerm.num 11)
          (ObjPermEntries.cons (ObjPerm.str "fast") ObjPermEntries.nil))
        (List.Perm.swap ("mode", Json.str "fast") ("zoom", Json.num 11) [])
        (by decide)),
   generate_cache_key_canonical.2.2 "shiraz" [] commonFilterPremium⟩

/-! ### Association-list and LRU lemmas -/

theorem assocGet_assocSet_self {κ β : Type} [DecidableEq κ] (l : List (κ × β)) (k : κ) (v : β) :
    assocGet (assocSet l k v) k = some v := by
  induction l with
  | nil => simp [assocSet, assocGet]
  | cons p l ih =>
    obtain ⟨k', v'⟩ := p
    by_cases h : k' = k
    · simp [assocSet, assocGet, h]
    · simp [assocSet, assocGet, h, ih]

theorem assocGet_assocSet_ne {κ β : Type} [DecidableEq κ] (l : List (κ × β)) (k k' : κ) (v : β)
    (h : k' ≠ k) : assocGet (assocSet l k v) k' = assocGet l k' := by
  induction l with
  | nil => simp [assocSet, assocGet, Ne.symm h]
  | cons p l ih =>
    obtain ⟨k₀, v₀⟩ := p
    by_cases h0 : k₀ = k
    · subst h0
      simp [assocSet, assocGet, Ne.symm h]
    · simp only [assocSet, if_neg h0]
      by_cases h1 : k₀ = k'
      · simp [assocGet, h1]
      · simp [assocGet, h1, ih]

theorem assocGet_assocErase_ne {κ β : Type} [DecidableEq κ] (l : List (κ × β)) (k k' : κ)
    (h : k' ≠ k) : assocGet (assocErase l k) k' = assocGet l k' := by
  induction l with
  | nil => rfl
  | cons p l ih =>
    obtain ⟨k₀, v₀⟩ := p
    by_cases h0 : k₀ = k
    · subst h0
      simp [assocErase, assocGet, Ne.symm h]
    · simp only [assocErase, if_neg h0]
      by_cases h1 : k₀ = k'
      · simp [assocGet, h1]
      · simp [assocGet, h1, ih]

theorem assocGet_eq_none_of_not_mem_keys {κ β : Type} [DecidableEq κ]
    (l : List (κ × β)) (k : κ) (h : k ∉ l.map Prod.fst) : assocGet l k = none := by
  induction l with
  | nil => rfl
  | cons p l ih =>
    obtain ⟨k₀, v₀⟩ := p
    simp only [List.map_cons, List.mem_cons] at h
    push_neg at h
    simp [assocGet, Ne.symm h.1, ih h.2]

theorem assocGet_assocErase_self {κ β : Type} [DecidableEq κ] (l : List (κ × β)) (k : κ)
    (nd : (l.map Prod.fst).Nodup) : assocGet (assocErase l k) k = none := by
  induction l with
  | nil => rfl
  | cons p l ih =>
    obtain ⟨k₀, v₀⟩ := p
    simp only [List.map_cons, List.nodup_cons] at nd
    by_cases h0 : k₀ = k
    · subst h0
      simp only [assocErase, if_pos rfl]
      exact assocGet_eq_none_of_not_mem_keys l k₀ nd.1
    · simp [assocErase, assocGet, h0, ih nd.2]

theorem assocGet_isSome_of_mem {κ β : Type} [DecidableEq κ] {l : List (κ × β)} {p : κ × β}
    (h : p ∈ l) : (assocGet l p.1).isSome := by
  induction l with
  | nil => simp at h
  | cons q l ih =>
    obtain ⟨k₀, v₀⟩ := q
    rcases List.mem_cons.mp h with h0 | h0
    · subst h0; simp [assocGet]
    · by_cases h1 : k₀ = p.1
      · simp [assocGet, h1]
      · simp [assocGet, h1, ih h0]

theorem length_assocSet_le {κ β : Type} [DecidableEq κ] (l : List (κ × β)) (k : κ) (v : β) :
    (assocSet l k v).length ≤ l.length + 1 := by
  induction l with
  | nil => simp [assocSet]
  | cons p l ih =>
    obtain ⟨k₀, v₀⟩ := p
    by_cases h0 : k₀ = k
    · simp [assocSet, h0]
    · simp only [assocSet, if_neg h0, List.length_cons]
      omega

theorem length_assocErase_of_isSome {κ β : Type} [DecidableEq κ] (l : List (κ × β)) (k : κ)
    (h : (assocGet l k).isSome) : (assocErase l k).length + 1 = l.length := by
  induction l with
  | nil => simp [assocGet] at h
  | cons p l ih =>
    obtain ⟨k₀, v₀⟩ := p
    by_cases h0 : k₀ = k
    · simp [assocErase, h0]
    · simp only [assocGet, if_neg h0] at h
      have h2 := ih h
      simp only [assocErase, if_neg h0, List.length_cons]
      omega

theorem minByLastAccessed_isSome {α : Type} {l : MemCache α} (h : l ≠ []) :
    ∃ q, minByLastAccessed l = some q := by
  cases l with
  | nil => exact absurd rfl h
  | cons p l =>
    rw [minByLastAccessed]
    cases minByLastAccessed l with
    | none => exact ⟨p, rfl⟩
    | some r =>
      by_cases hle : p.2.last_accessed ≤ r.2.last_accessed
      · exact ⟨p, if_pos hle⟩
      · exact ⟨r, if_neg hle⟩

theorem minByLastAccessed_mem {α : Type} : ∀ {l : MemCache α} {q : String × MemEntry α},
    minByLastAccessed l = some q → q ∈ l := by
  intro l
  induction l with
  | nil => intro q h; simp [minByLastAccessed] at h
  | cons p l ih =>
    intro q h
    cases hm : minByLastAccessed l with
    | none =>
      simp only [minByLastAccessed, hm] at h
      rw [Option.some_inj] at h
      exact h ▸ List.mem_cons_self p l
    | some r =>
      simp only [minByLastAccessed, hm] at h
      by_cases hle : p.2.last_accessed ≤ r.2.last_accessed
      · rw [if_pos hle, Option.some_inj] at h
        exact h ▸ List.mem_cons_self p l
      · rw [if_neg hle, Option.some_inj] at h
        exact List.mem_cons_of_mem p (ih (hm.trans (congrArg some h)))

theorem minByLastAccessed_le {α : Type} : ∀ {l : MemCache α} {q : String × MemEntry α},
    minByLastAccessed l = some q → ∀ p ∈ l, q.2.last_accessed ≤ p.2.last_accessed := by
  intro l
  induction l with
  | nil => intro q h; simp [minByLastAccessed] at h
  | cons p l ih =>
    intro q h r hr
    cases hm : minByLastAccessed l with
    | none =>
      have hl : l = [] := by
        cases l with
        | nil => rfl
        | cons s l2 =>
          obtain ⟨q2, hq2⟩ := minByLastAccessed_isSome (l := s :: l2) (by simp)
          rw [hq2] at hm
          exact absurd hm (by simp)
      subst hl
      simp only [minByLastAccessed] at h
      rw [Option.some_inj] at h
      rcases List.mem_cons.mp hr with h0 | h0
      · rw [← h, h0]
      · simp at h0
    | some m =>
      simp only [minByLastAccessed, hm] at h
      have hmin := ih hm
      by_cases hle : p.2.last_accessed ≤ m.2.last_accessed
      · rw [if_pos hle, Option.some_inj] at h
        rcases List.mem_cons.mp hr with h0 | h0
        · rw [← h, h0]
        · have := hmin r h0
          rw [← h]
          omega
      · rw [if_neg hle, Option.some_inj] at h
        rcases List.mem_cons.mp hr with h0 | h0
        · rw [← h, h0]
          omega
        · have := hmin r h0
          rw [← h]
          omega

theorem add_to_memory_cache_length {α : Type} (cache : MemCache α) (k : String)
    (d : List α) (t : Nat) (h : cache.length ≤ maxMemoryCacheSize) :
    (add_to_memory_cache cache k d t).length ≤ maxMemoryCacheSize := by
  unfold add_to_memory_cache
  by_cases hfull : maxMemoryCacheSize ≤ cache.length
  · have hne : cache ≠ [] := by
      intro hc
      rw [hc] at hfull
      simp [maxMemoryCacheSize] at hfull
    obtain ⟨q, hq⟩ := minByLastAccessed_isSome hne
    simp only [if_pos hfull, hq]
    have h1 := length_assocErase_of_isSome cache q.1
      (assocGet_isSome_of_mem (minByLastAccessed_mem hq))
    have h2 := length_assocSet_le (assocErase cache q.1) k
      (⟨d, t, 1⟩ : MemEntry α)
    omega
  · simp only [if_neg hfull]
    have h2 := length_assocSet_le cache k (⟨d, t, 1⟩ : MemEntry α)
    omega

/-- C4: starting from an empty MemoryCache, any sequence of inserts
keeps the entry count within the bound of 50
(`max_memory_cache_size`), and whenever an insert happens against a
full cache an eviction occurs, removing exactly an entry whose
`last_accessed` is the global minimum over all entries at eviction
time. -/
theorem memory_cache_bounded_lru :
    (∀ (α : Type) (ops : List (String × List α × Nat)),
      (ops.foldl (fun c op => add_to_memory_cache c op.1 op.2.1 op.2.2)
          ([] : MemCache α)).length ≤ maxMemoryCacheSize) ∧
    (∀ (α : Type) (cache : MemCache α) (k : String) (d : List α) (t : Nat),
      maxMemoryCacheSize ≤ cache.length →
      ∃ q, minByLastAccessed cache = some q ∧
        (∀ p ∈ cache, q.2.last_accessed ≤ p.2.last_accessed) ∧
        add_to_memory_cache cache k d t =
          assocSet (assocErase cache q.1) k ⟨d, t, 1⟩) := by
  constructor
  · intro α ops
    have main : ∀ (ops : List (String × List α × Nat)) (c : MemCache α),
        c.length ≤ maxMemoryCacheSize →
        (ops.foldl (fun c op => add_to_memory_cache c op.1 op.2.1 op.2.2)
            c).length ≤ maxMemoryCacheSize := by
      intro ops
      induction ops with
      | nil => intro c hc; exact hc
      | cons op ops ih =>
        intro c hc
        exact ih _ (add_to_memory_cache_length c op.1 op.2.1 op.2.2 hc)
    exact main ops [] (by simp [maxMemoryCacheSize])
  · intro α cache k d t hfull
    have hne : cache ≠ [] := by
      intro hc
      rw [hc] at hfull
      simp [maxMemoryCacheSize] at hfull
    obtain ⟨q, hq⟩ := minByLastAccessed_isSome hne
    refine ⟨q, hq, minByLastAccessed_le hq, ?_⟩
    unfold add_to_memory_cache
    simp only [if_pos hfull, hq]

/-- Witness for C4: a concrete put sequence stays within the bound,
and a put against the full 50-entry cache `bigCacheW` evicts through
the minimal entry `("k0", ...)`. -/
theorem memory_cache_bounded_lru_witness :
    ((putsW.foldl (fun c op => add_to_memory_cache c op.1 op.2.1 op.2.2)
        ([] : MemCache Nat)).length ≤ maxMemoryCacheSize) ∧
    (∃ q, minByLastAccessed bigCacheW = some q ∧
      (∀ p ∈ bigCacheW, q.2.last_accessed ≤ p.2.last_accessed) ∧
      add_to_memory_cache bigCacheW "fresh" [7] 100 =
        assocSet (assocErase bigCacheW q.1) "fresh" ⟨[7], 100, 1⟩) :=
  ⟨memory_cache_bounded_lru.1 Nat putsW,
   memory_cache_bounded_lru.2 Nat bigCacheW "fresh" [7] 100 (by decide)⟩

/-- C5 counterexample: with the cache at capacity, a put of the
already-present key `"k49"` still evicts — the entry for the other key
`"k0"` (the LRU entry) is removed, contradicting the claim that a put
of a present key removes no other entry. -/
theorem memory_cache_put_present_key_counterexample :
    (assocGet bigCacheW "k49").isSome ∧
    (assocGet bigCacheW "k0").isSome ∧
    assocGet (add_to_memory_cache bigCacheW "k49" [99] 100) "k0" = none := by
  refine ⟨by decide, by decide, by decide⟩

/-- C5 amended: a put into MemoryCache evicts whenever the cache
holds at least 50 entries at call time, whether or not the key is
already present; the evicted entry is one with the globally minimal
`last_accessed`, and entries for keys other than the evicted key and
the put key are left unchanged. -/
theorem add_to_memory_cache_eviction_frame :
    ∀ (α : Type) (cache : MemCache α) (k : String) (d : List α) (t : Nat)
      (q : String × MemEntry α),
      (cache.map Prod.fst).Nodup → maxMemoryCacheSize ≤ cache.length →
      minByLastAccessed cache = some q → q.1 ≠ k →
      assocGet (add_to_memory_cache cache k d t) q.1 = none ∧
      (∀ p ∈ cache, q.2.last_accessed ≤ p.2.last_accessed) ∧
      (∀ k', k' ≠ k → k' ≠ q.1 →
        assocGet (add_to_memory_cache cache k d t) k' = assocGet cache k') := by
  intro α cache k d t q nd hfull hq hqk
  have hadd : add_to_memory_cache cache k d t =
      assocSet (assocErase cache q.1) k ⟨d, t, 1⟩ := by
    unfold add_to_memory_cache
    simp only [if_pos hfull, hq]
  refine ⟨?_, minByLastAccessed_le hq, ?_⟩
  · rw [hadd, assocGet_assocSet_ne _ _ _ _ hqk,
      assocGet_assocErase_self cache q.1 nd]
  · intro k' hk1 hk2
    rw [hadd, assocGet_assocSet_ne _ _ _ _ hk1,
      assocGet_assocErase_ne _ _ _ hk2]

/-- Witness for C5's amended theorem: putting the present key `"k49"`
into the full `bigCacheW` removes `"k0"` (the global LRU minimum) and
leaves e.g. `"k7"` unchanged. -/
theorem add_to_memory_cache_eviction_frame_witness :
    assocGet (add_to_memory_cache bigCacheW "k49" [99] 100) "k0" = none ∧
    (∀ p ∈ bigCacheW, (("k0", ⟨[0], 0, 1⟩) : String × MemEntry Nat).2.last_accessed ≤
      p.2.last_accessed) ∧
    (∀ k', k' ≠ "k49" → k' ≠ "k0" →
      assocGet (add_to_memory_cache bigCacheW "k49" [99] 100) k' =
        assocGet bigCacheW k') :=
  add_to_memory_cache_eviction_frame Nat bigCacheW "k49" [99] 100
    ("k0", ⟨[0], 0, 1⟩) (by decide) (by decide) (by decide) (by decide)

/-- C3 amended: `_add_to_preload_queue` alone maintains the
at-most-one-pending-task-per-fingerprint invariant — an enqueue whose
fingerprint is already pending leaves the queue literally unchanged
(no priority upgrade) and an enqueue never introduces a duplicate
fingerprint; the seeding done by `start_preloading`, however, appends
the common combinations without any duplicate check (see the
counterexample), so the uniqueness invariant does not extend to it. -/
theorem add_to_preload_queue_unique :
    ∀ (queue : List CoverageGridTask) (city : String) (bls : List String)
      (vf : Json) (now : Nat),
      (queue.map task_cache_key).Nodup →
      ((add_to_preload_queue queue city bls vf now).map task_cache_key).Nodup ∧
      (generate_cache_key city bls vf none ∈ queue.map task_cache_key →
        add_to_preload_queue queue city bls vf now = queue) := by
  intro queue city bls vf now nd
  by_cases hmem : generate_cache_key city bls vf none ∈ queue.map task_cache_key
  · have heq : add_to_preload_queue queue city bls vf now = queue := by
      unfold add_to_preload_queue
      simp [hmem]
    rw [heq]
    exact ⟨nd, fun _ => rfl⟩
  · have heq : add_to_preload_queue queue city bls vf now =
        sortTasks (queue ++ [(⟨city, bls, vf,
          calculate_priority city bls vf, now⟩ : CoverageGridTask)]) := by
      unfold add_to_preload_queue
      simp [hmem]
    rw [heq]
    constructor
    · have hperm :
          ((sortTasks (queue ++ [(⟨city, bls, vf,
              calculate_priority city bls vf, now⟩ : CoverageGridTask)])).map task_cache_key).Perm
            ((queue ++ [(⟨city, bls, vf,
              calculate_priority city bls vf, now⟩ : CoverageGridTask)]).map task_cache_key) :=
        (List.perm_insertionSort taskLe _).map task_cache_key
      rw [hperm.nodup_iff, List.map_append, List.nodup_append]
      refine ⟨nd, by simp, ?_⟩
      intro x hx
      simp only [List.map_cons, List.map_nil, List.mem_singleton]
      intro hx1
      have hx2 : x = generate_cache_key city bls vf none := hx1
      exact hmem (hx2 ▸ hx)
    · intro hcon
      exact absurd hcon hmem

set_option maxRecDepth 400000 in
/-- Witness for C3: enqueuing the same combination a second time while
it is pending leaves the concrete one-task queue `q0W` unchanged, with
its fingerprints duplicate-free. -/
theorem add_to_preload_queue_unique_witness :
    ((add_to_preload_queue q0W "tehran" ["restaurant"] commonFilterAll 6).map
        task_cache_key).Nodup ∧
    add_to_preload_queue q0W "tehran" ["restaurant"] commonFilterAll 6 = q0W :=
  ⟨(add_to_preload_queue_unique q0W "tehran" ["restaurant"] commonFilterAll 6
      (by decide)).1,
   (add_to_preload_queue_unique q0W "tehran" ["restaurant"] commonFilterAll 6
      (by decide)).2 (by decide)⟩

set_option maxRecDepth 400000 in
/-- C3 counterexample: with the (tehran, [restaurant], all-vendors)
task already pending, `start_preloading` seeds the common combinations
without a duplicate check, leaving two queued tasks with that same
fingerprint — the claimed queue-wide uniqueness invariant fails. -/
theorem preload_queue_unique_counterexample :
    ((start_preloading (⟨q0W, false, false⟩ : PreloadMgr) 9).2.preload_queue.countP
      (fun t => task_cache_key t ==
        generate_cache_key "tehran" ["restaurant"] commonFilterAll none)) = 2 := by
  decide

/-- C10 corrected behavior: after `stop_preloading`, the next
`start_preloading` raises (submit on a shut-down executor) only after
it has already set `is_preloading` and appended and sorted the common
combinations into the queue; and because `is_preloading` is left
`true`, any later `start_preloading` returns early without raising, so
preloading can never be restarted on the instance. -/
theorem start_preloading_after_stop :
    ∀ (m : PreloadMgr) (now now2 : Nat),
      (start_preloading (stop_preloading m) now).1 = some PyErr.runtimeError ∧
      (start_preloading (stop_preloading m) now).2.is_preloading = true ∧
      (start_preloading (stop_preloading m) now).2.preload_queue =
        sortTasks (m.preload_queue ++ common_combinations now) ∧
      start_preloading ((start_preloading (stop_preloading m) now).2) now2 =
        (none, (start_preloading (stop_preloading m) now).2) := by
  intro m now now2
  simp [start_preloading, stop_preloading]

/-- C10 counterexample: the claim that every subsequent
`start_preloading` raises fails — starting from a fresh manager, after
`stop_preloading` the first `start_preloading` raises, but the second
one returns normally (no exception), because the failed start left
`is_preloading = true`. -/
theorem start_preloading_after_stop_counterexample :
    (start_preloading (stop_preloading (⟨[], false, false⟩ : PreloadMgr)) 0).1 =
      some PyErr.runtimeError ∧
    (start_preloading
      (start_preloading (stop_preloading (⟨[], false, false⟩ : PreloadMgr)) 0).2 1).1 =
      none :=
  ⟨rfl, rfl⟩

/-! ### Coordinator lemmas -/

theorem assocGet_update_memory_cache_access_self {α : Type} (cache : MemCache α)
    (k : String) (now : Nat) (e : MemEntry α) (h : assocGet cache k = some e) :
    assocGet (update_memory_cache_access cache k now) k =
      some ⟨e.data, now, e.access_count + 1⟩ := by
  unfold update_memory_cache_access
  rw [h]
  exact assocGet_assocSet_self cache k _

theorem assocGet_add_to_memory_cache_self {α : Type} (cache : MemCache α)
    (k : String) (d : List α) (t : Nat) :
    assocGet (add_to_memory_cache cache k d t) k = some ⟨d, t, 1⟩ := by
  unfold add_to_memory_cache
  exact assocGet_assocSet_self _ k _

theorem get_or_calculate_memory_hit {α : Type}
    (engine : String → List String → Json → Option (List α))
    (st : CoordState α) (now : Nat) (city : String) (bls : List String) (vf : Json)
    (e : MemEntry α)
    (h : assocGet st.memory_cache (generate_cache_key city bls vf none) = some e) :
    get_or_calculate_coverage_grid engine st now city bls vf false =
      (some e.data,
       { st with memory_cache := (update_memory_cache_access st.memory_cache
           (generate_cache_key city bls vf none) now) },
       0) := by
  unfold get_or_calculate_coverage_grid
  simp [h]

theorem get_or_calculate_memory_hit_engine_count {α : Type}
    (engine : String → List String → Json → Option (List α))
    (st : CoordState α) (now : Nat) (city : String) (bls : List String) (vf : Json)
    (h : (assocGet st.memory_cache (generate_cache_key city bls vf none)).isSome) :
    (get_or_calculate_coverage_grid engine st now city bls vf false).2.2 = 0 := by
  obtain ⟨e, he⟩ := Option.isSome_iff_exists.mp h
  rw [get_or_calculate_memory_hit engine st now city bls vf e he]

theorem mem_after_first_call {α : Type}
    (engine : String → List String → Json → Option (List α))
    (st : CoordState α) (now : Nat) (city : String) (bls : List String) (vf : Json)
    (d : List α)
    (h : (get_or_calculate_coverage_grid engine st now city bls vf false).1 = some d)
    (hne : d ≠ []) :
    (assocGet ((get_or_calculate_coverage_grid engine st now city bls vf false).2.1).memory_cache
      (generate_cache_key city bls vf none)).isSome := by
  unfold get_or_calculate_coverage_grid at h ⊢
  cases hm : assocGet st.memory_cache (generate_cache_key city bls vf none) with
  | some e =>
    simp only [hm] at h ⊢
    simp only [Bool.false_eq_true, if_false]
    rw [assocGet_update_memory_cache_access_self st.memory_cache _ now e hm]
    rfl
  | none =>
    simp only [hm, Bool.false_eq_true, if_false] at h ⊢
    cases hdb : (get_cached_coverage_grid st.db (generate_cache_key city bls vf none) now).1 with
    | some cd =>
      simp only [hdb] at h ⊢
      by_cases hemp : cd.isEmpty
      · simp only [hemp, if_true] at h ⊢
        unfold coverage_grid_miss_path at h ⊢
        cases heng : engine city bls vf with
        | some gd =>
          simp only [heng] at h ⊢
          by_cases hge : gd.isEmpty
          · simp only [hge, if_true] at h
            rw [Option.some_inj] at h
            rw [← h] at hne
            exact absurd (List.isEmpty_iff.mp hge) hne
          · simp only [hge, Bool.false_eq_true, if_false]
            rw [assocGet_add_to_memory_cache_self]
            rfl
        | none =>
          simp only [heng] at h
          exact absurd h (by simp)
      · simp only [hemp, Bool.false_eq_true, if_false]
        rw [assocGet_add_to_memory_cache_self]
        rfl
    | none =>
      simp only [hdb] at h ⊢
      unfold coverage_grid_miss_path at h ⊢
      cases heng : engine city bls vf with
      | some gd =>
        simp only [heng] at h ⊢
        by_cases hge : gd.isEmpty
        · simp only [hge, if_true] at h
          rw [Option.some_inj] at h
          rw [← h] at hne
          exact absurd (List.isEmpty_iff.mp hge) hne
        · simp only [hge, Bool.false_eq_true, if_false]
          rw [assocGet_add_to_memory_cache_self]
          rfl
      | none =>
        simp only [heng] at h
        exact absurd h (by simp)

/-- C1 counterexample: the claim fails for a completing call whose
computation yields an empty result.  With a stub engine that returns
`[]` (no matching data), the first `force=false` call completes
(returning `some []`), yet the second identical call invokes the
engine again (its engine-invocation count is 1, not 0), because the
falsy empty result was never cached in either tier. -/
theorem get_or_calculate_coherent_counterexample :
    (get_or_calculate_coverage_grid engineEmpty emptyCoord 0 "tehran" ["restaurant"]
      commonFilterAll false).1 = some [] ∧
    (get_or_calculate_coverage_grid engineEmpty
      (get_or_calculate_coverage_grid engineEmpty emptyCoord 0 "tehran" ["restaurant"]
        commonFilterAll false).2.1
      1 "tehran" ["restaurant"] commonFilterAll false).2.2 = 1 :=
  ⟨rfl, rfl⟩

/-- C1 amended: if a `force=false` call to
`get_or_calculate_coverage_grid` completes with a non-empty result,
then a second call with identical arguments and `force=false` does not
invoke the Computation Engine (its engine-invocation count is 0): it
is served from the MemoryCache (or, transitively, the persistent
store, which the first call populated into the MemoryCache). -/
theorem get_or_calculate_cache_coherent :
    ∀ (α : Type) (engine : String → List String → Json → Option (List α))
      (st : CoordState α) (n1 n2 : Nat) (city : String) (bls : List String)
      (vf : Json) (d : List α),
      (get_or_calculate_coverage_grid engine st n1 city bls vf false).1 = some d →
      d ≠ [] →
      (get_or_calculate_coverage_grid engine
        (get_or_calculate_coverage_grid engine st n1 city bls vf false).2.1
        n2 city bls vf false).2.2 = 0 := by
  intro α engine st n1 n2 city bls vf d h hne
  exact get_or_calculate_memory_hit_engine_count engine _ n2 city bls vf
    (mem_after_first_call engine st n1 city bls vf d h hne)

/-- Witness for C1's amended theorem: a successful non-empty
computation; the repeat call performs zero engine invocations. -/
theorem get_or_calculate_cache_coherent_witness :
    (get_or_calculate_coverage_grid engineSeven
      (get_or_calculate_coverage_grid engineSeven emptyCoord 0 "tehran" ["restaurant"]
        commonFilterAll false).2.1
      1 "tehran" ["restaurant"] commonFilterAll false).2.2 = 0 :=
  get_or_calculate_cache_coherent Nat engineSeven emptyCoord 0 1 "tehran"
    ["restaurant"] commonFilterAll [7] rfl (by decide)

/-- C2: evaluation of the code at the failing input.  The engine
reports an empty result (`[]`, no matching data) on a full cache miss:
the call does return the empty (not missing) result `some []`, but —
because of the falsy-list guard `if grid_data:` — writes it to neither
the persistent store nor the MemoryCache, so the repeated identical
no-data query invokes the engine a second time (once per call, twice
in total), contradicting the claim (and the spec's stated intent) that
the empty result is cached and the engine runs exactly once. -/
theorem empty_result_not_cached_code_bug :
    (get_or_calculate_coverage_grid engineEmpty emptyCoord 0 "tehran" ["restaurant"]
      commonFilterAll false).1 = some [] ∧
    (get_or_calculate_coverage_grid engineEmpty emptyCoord 0 "tehran" ["restaurant"]
      commonFilterAll false).2.1.memory_cache = [] ∧
    (get_or_calculate_coverage_grid engineEmpty emptyCoord 0 "tehran" ["restaurant"]
      commonFilterAll false).2.1.db = [] ∧
    (get_or_calculate_coverage_grid engineEmpty emptyCoord 0 "tehran" ["restaurant"]
      commonFilterAll false).2.2 = 1 ∧
    (get_or_calculate_coverage_grid engineEmpty
      (get_or_calculate_coverage_grid engineEmpty emptyCoord 0 "tehran" ["restaurant"]
        commonFilterAll false).2.1
      1 "tehran" ["restaurant"] commonFilterAll false).2.2 = 1 :=
  ⟨rfl, rfl, rfl, rfl, rfl⟩

/-- C7: when the coverage computation fails (the engine raises, which
`_calculate_coverage_grid` turns into `None`), the call returns the
failure (`none`) to its caller and modifies neither the MemoryCache
nor the persistent `coverage_grid_cache` — nothing is cached on
failure.  The failure is observable exactly on a computation path:
either `force=true`, or both cache tiers miss. -/
theorem computation_failure_not_cached :
    ∀ (α : Type) (engine : String → List String → Json → Option (List α))
      (st : CoordState α) (now : Nat) (city : String) (bls : List String)
      (vf : Json) (force : Bool),
      (force = true ∨
        (assocGet st.memory_cache (generate_cache_key city bls vf none) = none ∧
         dbFind st.db (generate_cache_key city bls vf none) = none)) →
      engine city bls vf = none →
      (get_or_calculate_coverage_grid engine st now city bls vf force).1 = none ∧
      (get_or_calculate_coverage_grid engine st now city bls vf force).2.1.memory_cache =
        st.memory_cache ∧
      (get_or_calculate_coverage_grid engine st now city bls vf force).2.1.db = st.db := by
  intro α engine st now city bls vf force hmiss heng
  unfold get_or_calculate_coverage_grid
  rcases hmiss with hf | ⟨hm, hdbf⟩
  · subst hf
    simp only [if_true]
    unfold coverage_grid_miss_path
    simp [heng]
  · have hdb : get_cached_coverage_grid st.db (generate_cache_key city bls vf none) now =
        (none, st.db) := by
      unfold get_cached_coverage_grid
      rw [hdbf]
    cases force with
    | true =>
      simp only [if_true]
      unfold coverage_grid_miss_path
      simp [heng]
    | false =>
      simp only [Bool.false_eq_true, if_false, hm, hdb]
      unfold coverage_grid_miss_path
      simp [heng]

/-- Witness for C7: a failing engine on empty caches returns the
failure and leaves both cache tiers (here empty) unchanged. -/
theorem computation_failure_not_cached_witness :
    (get_or_calculate_coverage_grid engineFail emptyCoord 0 "tehran" ["restaurant"]
      commonFilterAll false).1 = none ∧
    (get_or_calculate_coverage_grid engineFail emptyCoord 0 "tehran" ["restaurant"]
      commonFilterAll false).2.1.memory_cache = emptyCoord.memory_cache ∧
    (get_or_calculate_coverage_grid engineFail emptyCoord 0 "tehran" ["restaurant"]
      commonFilterAll false).2.1.db = emptyCoord.db :=
  computation_failure_not_cached Nat engineFail emptyCoord 0 "tehran" ["restaurant"]
    commonFilterAll false (Or.inr ⟨rfl, rfl⟩) rfl

/-- C8: in result post-processing, for the target-bearing
configuration (a non-empty target lookup — which the tehran
single-business-line branch is the designated loader of — and exactly
one requested business line), every kept grid point (positive vendor
count) whose resolved marketing area id is truthy and has a target
entry gets the target-vs-actual metrics attached, with
`performance_ratio` (field `perf_vs_target`) equal to
`actual / target` when `target > 0` and the sentinel `2.0` otherwise;
the processed point with those metrics is in the output list.  Note
the source currently builds an empty lookup
(`target_lookup_loaded`), making the attachment branch unreachable in
`process_coverage_results` itself; the theorem verifies the branch
over the lookup as an explicit input. -/
theorem process_attaches_target_metrics :
    ∀ (tl : List ((Int × String) × ℚ)) (covs : List CoveragePoint)
      (areas : List (Option Int × Option String)) (bl : String) (i : Nat)
      (cov : CoveragePoint) (a : Int) (nm : Option String) (tv : ℚ),
      (i, cov) ∈ enumerateFrom 0 covs →
      cov.total_vendors > 0 →
      i < areas.length →
      areas.getD i (none, none) = (some a, nm) →
      a ≠ 0 →
      tl ≠ [] →
      assocGet tl (a, bl) = some tv →
      process_point tl areas [bl] i cov =
        some ⟨cov.lat, cov.lng, cov, nm,
          some ⟨bl, tv, (assocGet cov.by_business_line bl).getD 0,
            if tv > 0 then (assocGet cov.by_business_line bl).getD 0 / tv else 2⟩⟩ ∧
      (⟨cov.lat, cov.lng, cov, nm,
        some ⟨bl, tv, (assocGet cov.by_business_line bl).getD 0,
          if tv > 0 then (assocGet cov.by_business_line bl).getD 0 / tv else 2⟩⟩ :
            ProcessedPoint) ∈
        process_coverage_results_with tl covs areas [bl] := by
  intro tl covs areas bl i cov a nm tv hmem htot hlen harea ha htl hget
  have hpoint : process_point tl areas [bl] i cov =
      some ⟨cov.lat, cov.lng, cov, nm,
        some ⟨bl, tv, (assocGet cov.by_business_line bl).getD 0,
          if tv > 0 then (assocGet cov.by_business_line bl).getD 0 / tv else 2⟩⟩ := by
    rw [List.getD_eq_getElem areas (none, none) hlen] at harea
    simp [process_point, htot, hlen, harea, pyTruthyAreaId, ha, htl, hget]
  refine ⟨hpoint, ?_⟩
  unfold process_coverage_results_with
  exact List.mem_filterMap.mpr ⟨(i, cov), hmem, hpoint⟩

/-- Witness for C8: one kept point in area 1 with target 4 and actual
coverage 2; the attached ratio is 1/2. -/
theorem process_attaches_target_metrics_witness :
    process_point targetLookupW areasW ["restaurant"] 0 covPointW =
      some ⟨covPointW.lat, covPointW.lng, covPointW, some "district-1",
        some ⟨"restaurant", 4, (assocGet covPointW.by_business_line "restaurant").getD 0,
          if (4 : ℚ) > 0 then (assocGet covPointW.by_business_line "restaurant").getD 0 / 4
          else 2⟩⟩ ∧
    (⟨covPointW.lat, covPointW.lng, covPointW, some "district-1",
      some ⟨"restaurant", 4, (assocGet covPointW.by_business_line "restaurant").getD 0,
        if (4 : ℚ) > 0 then (assocGet covPointW.by_business_line "restaurant").getD 0 / 4
        else 2⟩⟩ : ProcessedPoint) ∈
      process_coverage_results_with targetLookupW [covPointW] areasW ["restaurant"] :=
  process_attaches_target_metrics targetLookupW [covPointW] areasW "restaurant" 0
    covPointW 1 (some "district-1") 4 (by decide) (by decide) (by decide) (by decide)
    (by decide) (by decide) (by decide)

/-- C9 counterexample: at a concrete input where two records (one
stale coverage row, one stale heatmap row) are removed, the function
returns `none` — Python's implicit `None`, since `cleanup_old_cache`
has no return statement — not the count 2 the claim requires. -/
theorem cleanup_returns_none_counterexample :
    (cleanup_old_cache covRecsW heatRecsW (10 * secondsPerDay) 7).1 = none ∧
    (cleanup_old_cache covRecsW heatRecsW (10 * secondsPerDay) 7).1 ≠ some 2 ∧
    covRecsW.length + heatRecsW.length -
      ((cleanup_old_cache covRecsW heatRecsW (10 * secondsPerDay) 7).2.1.length +
        (cleanup_old_cache covRecsW heatRecsW (10 * secondsPerDay) 7).2.2.length) = 2 := by
  refine ⟨rfl, by decide, by decide⟩

/-- C9 amended: `cleanup_old_cache(days_old)` deletes exactly the
`coverage_grid_cache` records with `last_accessed` strictly older than
`now - days_old` and the `heatmap_cache` records with `created_at`
strictly older than that cutoff, retains every other record, and
returns no value (Python `None`) — the deleted counts are only
logged, not returned. -/
theorem cleanup_old_cache_spec :
    ∀ (cov : List CovCacheRec) (heat : List HeatCacheRec) (now days_old : Int),
      (cleanup_old_cache cov heat now days_old).1 = none ∧
      (∀ c : CovCacheRec, c ∈ (cleanup_old_cache cov heat now days_old).2.1 ↔
        (c ∈ cov ∧ ¬ c.last_accessed < now - days_old * secondsPerDay)) ∧
      (∀ h : HeatCacheRec, h ∈ (cleanup_old_cache cov heat now days_old).2.2 ↔
        (h ∈ heat ∧ ¬ h.created_at < now - days_old * secondsPerDay)) := by
  intro cov heat now d
  unfold cleanup_old_cache
  refine ⟨rfl, ?_, ?_⟩ <;> intro x <;> simp [List.mem_filter]
